import Mathlib

/-!
Verification of the file-sharing web application.

The application consists of an upload flow (`handleUpload` in
`src/components/FileUpload.tsx`), a download flow (`loadFileData` and
`handleDownload` in the download component) and an expiry sweep
(the `Deno.serve` edge-function handler).

Shallow embedding conventions:
* The backend (Supabase) object storage and the `files` table are modelled
  as an explicit `BackendState` threaded through each flow: the storage is
  an association list from keys to byte lists, the table a list of records.
* Timestamps are natural numbers (milliseconds, as in JavaScript `Date`);
  `expirationMinutes` is converted by `* 60000` exactly as
  `Date.setMinutes` adds whole minutes.
* SHA-256 (`crypto.subtle.digest`, an external browser API) is modelled as
  a parameter `hash : String → String`; every flow that hashes takes it as
  an argument.  The code only ever compares digests for string equality.
* Fallible external calls (storage upload, table insert, batch storage
  remove) take an injected `Bool` outcome flag; a `false` flag makes the
  modelled call fail exactly where the TypeScript `if (error) throw error`
  fires.
* JavaScript truthiness of strings (`''` is falsy) is modelled explicitly:
  `password ? … : null` becomes a test against the empty string, and
  `if (fileData.password_hash)` skips the gate when the field is `null`
  or the empty string.
-/

namespace FileShare

/-- A row of the `files` table (see the `CREATE TABLE public.files`
migration and the `FileData` interface of the download component). -/
structure FileRecord where
  id : String
  filename : String
  file_path : String
  file_size : Nat
  password_hash : Option String
  expires_at : Nat
  deriving Repr, DecidableEq

/-- The durable backend state: the `files` storage bucket (key ↦ bytes)
and the `files` metadata table. -/
structure BackendState where
  storage : List (String × List Nat)
  table : List FileRecord
  deriving Repr, DecidableEq

/-- `select('*').eq('id', fileId).single()`: look a record up by id. -/
def selectById (table : List FileRecord) (fileId : String) : Option FileRecord :=
  table.find? (fun r => decide (r.id = fileId))

/-- `supabase.storage.from('files').download(path)`: fetch the bytes
stored under a key, if any. -/
def storageGet (storage : List (String × List Nat)) (key : String) : Option (List Nat) :=
  (storage.find? (fun kv => decide (kv.1 = key))).map (fun kv => kv.2)

/-- Result of the upload flow, as surfaced by `handleUpload`'s toasts:
either the shareable link or a failure toast. -/
inductive UploadOutcome where
  | success (link : String)
  | failure (message : String)
  deriving Repr, DecidableEq

/-- Result of `loadFileData`: either the record is available for
download, or one of the error states shown by the component. -/
inductive LoadOutcome where
  | success (fd : FileRecord)
  | notFound
  | expired
  deriving Repr, DecidableEq

/-- Result of `handleDownload`: the saved bytes and filename, one of the
password toasts, or a generic download-failure toast. -/
inductive DownloadOutcome where
  | success (bytes : List Nat) (filename : String)
  | passwordRequired
  | incorrectPassword
  | failure (message : String)
  deriving Repr, DecidableEq

/-- Response of the expiry-sweep edge function: a deleted count with its
message, or the empty-result message. -/
inductive SweepOutcome where
  | deleted (message : String) (deletedCount : Nat)
  | noExpired (message : String)
  deriving Repr, DecidableEq

/-- `handleUpload` from `src/components/FileUpload.tsx`.

The flow: compute `filePath` from the fresh id and the file name, store
the bytes (`supabase.storage.from('files').upload`), and only if that
succeeded compute `expires_at = now + minutes` and the optional password
hash (`password ? await hashPassword(password) : null`, with `''` falsy)
and insert the metadata record.  `uploadOk` and `insertOk` inject the
outcomes of the two external calls; a thrown error surfaces as the
`Upload Failed` toast and stops the flow. -/
def handleUpload (hash : String → String) (st : BackendState)
    (fileId fileName : String) (fileBytes : List Nat)
    (password : String) (expirationMinutes : Nat) (now : Nat)
    (uploadOk insertOk : Bool) : BackendState × UploadOutcome :=
  let filePath := "uploads/" ++ fileId ++ "/" ++ fileName
  if uploadOk = false then
    (st, .failure "Upload Failed")
  else
    let st1 : BackendState := { st with storage := (filePath, fileBytes) :: st.storage }
    let expiresAt := now + expirationMinutes * 60000
    let passwordHash : Option String :=
      if password = "" then none else some (hash password)
    if insertOk = false then
      (st1, .failure "Upload Failed")
    else
      let record : FileRecord :=
        { id := fileId, filename := fileName, file_path := filePath,
          file_size := fileBytes.length, password_hash := passwordHash,
          expires_at := expiresAt }
      ({ st1 with table := record :: st1.table },
       .success ("/download/" ++ fileId))

/-- `loadFileData` from the download component.

Looks the record up by id (`.single()`); a miss is the `File not found`
error state.  If `expiresAt < new Date()` — strictly — it removes the
storage object, deletes the record and shows the
`File has expired and been deleted` error; otherwise the record is kept
for download. -/
def loadFileData (st : BackendState) (fileId : String) (now : Nat) :
    BackendState × LoadOutcome :=
  match selectById st.table fileId with
  | none => (st, .notFound)
  | some data =>
    if data.expires_at < now then
      ({ storage := st.storage.filter (fun kv => decide (kv.1 ≠ data.file_path)),
         table := st.table.filter (fun r => decide (r.id ≠ fileId)) },
       .expired)
    else
      (st, .success data)

/-- The byte fetch at the end of `handleDownload`:
`supabase.storage.from('files').download(fileData.file_path)` followed by
the anchor-click save under `fileData.filename`; a storage error becomes
the `Download Failed` toast. -/
def fetchFile (st : BackendState) (fileData : FileRecord) : DownloadOutcome :=
  match storageGet st.storage fileData.file_path with
  | none => .failure "Download Failed"
  | some bytes => .success bytes fileData.filename

/-- `handleDownload` from the download component.

If `fileData.password_hash` is truthy (non-null and non-empty), an empty
input password is rejected with the `Password Required` toast, and a
hashed input differing from the stored digest (strict case-sensitive
string comparison `hashedInput !== fileData.password_hash`) is rejected
with the `Incorrect Password` toast; neither rejection touches the
backend state.  Otherwise the bytes are fetched and saved. -/
def handleDownload (hash : String → String) (st : BackendState)
    (fileData : FileRecord) (password : String) :
    BackendState × DownloadOutcome :=
  match fileData.password_hash with
  | some stored =>
    if stored = "" then
      (st, fetchFile st fileData)
    else if password = "" then
      (st, .passwordRequired)
    else if hash password ≠ stored then
      (st, .incorrectPassword)
    else
      (st, fetchFile st fileData)
  | none => (st, fetchFile st fileData)

/-- `.select('*').lt('expires_at', new Date().toISOString())`: the sweep's
query for records expired strictly before a timestamp. -/
def selectExpiredBefore (table : List FileRecord) (t : Nat) : List FileRecord :=
  table.filter (fun r => decide (r.expires_at < t))

/-- The expiry-sweep edge function (`Deno.serve` handler).

`t1` is the timestamp of the `new Date()` in the select query and `t2`
the fresh `new Date()` taken again for the metadata delete.  If the
query finds expired records, their storage objects are removed as a
batch — a storage error is only logged (`console.error`), modelled by
`storageOk = false` leaving the storage unchanged — then all records
with `expires_at < t2` are deleted, and the response reports
`expiredFiles.length`.  With no expired records the response is the
`No expired files found` message. -/
def sweepExpired (st : BackendState) (t1 t2 : Nat) (storageOk : Bool) :
    BackendState × SweepOutcome :=
  let expiredFiles := selectExpiredBefore st.table t1
  if 0 < expiredFiles.length then
    let filePaths := expiredFiles.map (fun r => r.file_path)
    let storage1 :=
      if storageOk then
        st.storage.filter (fun kv => decide (kv.1 ∉ filePaths))
      else
        st.storage
    let table1 := st.table.filter (fun r => decide (¬ r.expires_at < t2))
    ({ storage := storage1, table := table1 },
     .deleted ("Deleted " ++ toString expiredFiles.length ++ " expired files")
       expiredFiles.length)
  else
    (st, .noExpired "No expired files found")

/-- A concrete backend state used to instantiate the theorems: one stored
object and its metadata record, expiring at time 5. -/
def demoState : BackendState :=
  { storage := [("uploads/a/f.txt", [7])],
    table := [FileRecord.mk "a" "f.txt" "uploads/a/f.txt" 1 none 5] }

/-! ### Helper lemmas about the modelled backend operations -/

theorem sweepExpired_pos (st : BackendState) (t1 t2 : Nat) (ok : Bool)
    (h : 0 < (selectExpiredBefore st.table t1).length) :
    sweepExpired st t1 t2 ok =
      ({ storage :=
           if ok then
             st.storage.filter (fun kv =>
               decide (kv.1 ∉ (selectExpiredBefore st.table t1).map (fun r => r.file_path)))
           else
             st.storage,
         table := st.table.filter (fun r => decide (¬ r.expires_at < t2)) },
       .deleted ("Deleted " ++ toString (selectExpiredBefore st.table t1).length
           ++ " expired files") (selectExpiredBefore st.table t1).length) := by
  simp only [sweepExpired]
  rw [if_pos h]

theorem sweepExpired_neg (st : BackendState) (t1 t2 : Nat) (ok : Bool)
    (h : ¬ 0 < (selectExpiredBefore st.table t1).length) :
    sweepExpired st t1 t2 ok = (st, .noExpired "No expired files found") := by
  simp only [sweepExpired]
  rw [if_neg h]

theorem selectById_filter_ne (table : List FileRecord) (fid : String) :
    selectById (table.filter (fun r => decide (r.id ≠ fid))) fid = none := by
  unfold selectById
  rw [List.find?_eq_none]
  intro r hr
  rw [List.mem_filter] at hr
  simpa using hr.2

theorem storageGet_filter_ne (storage : List (String × List Nat)) (key : String) :
    storageGet (storage.filter (fun kv => decide (kv.1 ≠ key))) key = none := by
  unfold storageGet
  have h : List.find? (fun kv => decide (kv.1 = key))
      (storage.filter (fun kv => decide (kv.1 ≠ key))) = none := by
    rw [List.find?_eq_none]
    intro kv hkv
    rw [List.mem_filter] at hkv
    simpa using hkv.2
  rw [h]
  rfl

theorem selectById_cons_self (r : FileRecord) (l : List FileRecord) (fid : String)
    (h : r.id = fid) : selectById (r :: l) fid = some r := by
  simp [selectById, List.find?_cons, h]

theorem storageGet_cons_head (k : String) (b : List Nat)
    (rest : List (String × List Nat)) : storageGet ((k, b) :: rest) k = some b := by
  simp [storageGet, List.find?_cons]

theorem handleDownload_no_gate (hash : String → String) (st : BackendState)
    (fd : FileRecord) (pw : String) (h : fd.password_hash = none) :
    handleDownload hash st fd pw = (st, fetchFile st fd) := by
  unfold handleDownload
  simp only [h]

theorem handleDownload_empty_hash (hash : String → String) (st : BackendState)
    (fd : FileRecord) (pw : String) (h : fd.password_hash = some "") :
    handleDownload hash st fd pw = (st, fetchFile st fd) := by
  unfold handleDownload
  simp [h]

theorem handleDownload_empty_input (hash : String → String) (st : BackendState)
    (fd : FileRecord) (stored : String) (h : fd.password_hash = some stored)
    (h1 : stored ≠ "") :
    handleDownload hash st fd "" = (st, .passwordRequired) := by
  unfold handleDownload
  simp only [h]
  rw [if_neg h1]
  simp

theorem handleDownload_wrong_input (hash : String → String) (st : BackendState)
    (fd : FileRecord) (stored pw : String) (h : fd.password_hash = some stored)
    (h1 : stored ≠ "") (h2 : pw ≠ "") (h3 : hash pw ≠ stored) :
    handleDownload hash st fd pw = (st, .incorrectPassword) := by
  unfold handleDownload
  simp only [h]
  rw [if_neg h1, if_neg h2, if_pos h3]

theorem handleDownload_correct_input (hash : String → String) (st : BackendState)
    (fd : FileRecord) (stored pw : String) (h : fd.password_hash = some stored)
    (h1 : stored ≠ "") (h2 : pw ≠ "") (h3 : hash pw = stored) :
    handleDownload hash st fd pw = (st, fetchFile st fd) := by
  unfold handleDownload
  simp only [h]
  rw [if_neg h1, if_neg h2, if_neg (by simp [h3])]

/-! ### Claim theorems -/

/-- Claim C8: for every download request whose record id matches no stored
record, the download flow fails with not-found. -/
theorem loadFileData_miss_notFound (st : BackendState) (fileId : String) (now : Nat)
    (h : selectById st.table fileId = none) :
    loadFileData st fileId now = (st, .notFound) := by
  unfold loadFileData
  rw [h]

/-- Claim C8 witness: a lookup on an empty table fails with not-found. -/
theorem loadFileData_miss_notFound_witness :
    selectById (BackendState.mk [] []).table "a" = none ∧
    loadFileData { storage := [], table := [] } "a" 0
      = ({ storage := [], table := [] }, .notFound) :=
  ⟨by decide, loadFileData_miss_notFound { storage := [], table := [] } "a" 0 (by decide)⟩

/-- Claim C1 counterexample: at the instant the current time equals
`expires_at` — so the claim's condition `now ≥ expires_at` holds — the
download lookup neither deletes anything nor fails with expired: the code
compares with strict `expiresAt < new Date()`, so the record is still
served. -/
theorem loadFileData_at_exact_expiry_still_served :
    5 ≥ (FileRecord.mk "a" "f.txt" "uploads/a/f.txt" 1 none 5).expires_at ∧
    loadFileData
        { storage := [("uploads/a/f.txt", [7])],
          table := [FileRecord.mk "a" "f.txt" "uploads/a/f.txt" 1 none 5] } "a" 5
      = ({ storage := [("uploads/a/f.txt", [7])],
           table := [FileRecord.mk "a" "f.txt" "uploads/a/f.txt" 1 none 5] },
         .success (FileRecord.mk "a" "f.txt" "uploads/a/f.txt" 1 none 5)) := by
  constructor
  · exact Nat.le_refl 5
  · decide

/-- Claim C1 (amended): for every stored record, if at download-lookup
time the current time is STRICTLY GREATER than `expires_at`, the download
flow deletes both the storage object and the metadata record and fails
with expired, so that a follow-up lookup of the same id returns
not-found. -/
theorem loadFileData_expired_deletes (st : BackendState) (fileId : String)
    (fd : FileRecord) (now : Nat)
    (hfind : selectById st.table fileId = some fd)
    (hexp : fd.expires_at < now) :
    ∃ st' : BackendState,
      loadFileData st fileId now = (st', .expired) ∧
      storageGet st'.storage fd.file_path = none ∧
      selectById st'.table fileId = none ∧
      loadFileData st' fileId now = (st', .notFound) := by
  refine ⟨{ storage := st.storage.filter (fun kv => decide (kv.1 ≠ fd.file_path)),
            table := st.table.filter (fun r => decide (r.id ≠ fileId)) }, ?_, ?_, ?_, ?_⟩
  · unfold loadFileData
    rw [hfind]
    simp [hexp]
  · exact storageGet_filter_ne _ _
  · exact selectById_filter_ne _ _
  · exact loadFileData_miss_notFound _ _ _ (selectById_filter_ne _ _)

/-- Claim C1 witness: the amended theorem at a concrete state, one
record expiring at time 5, looked up at time 6. -/
theorem loadFileData_expired_deletes_witness :
    selectById [FileRecord.mk "a" "f.txt" "uploads/a/f.txt" 1 none 5] "a"
      = some (FileRecord.mk "a" "f.txt" "uploads/a/f.txt" 1 none 5) ∧
    (FileRecord.mk "a" "f.txt" "uploads/a/f.txt" 1 none 5).expires_at < 6 ∧
    (∃ st' : BackendState,
      loadFileData
          { storage := [("uploads/a/f.txt", [7])],
            table := [FileRecord.mk "a" "f.txt" "uploads/a/f.txt" 1 none 5] } "a" 6
        = (st', .expired) ∧
      storageGet st'.storage (FileRecord.mk "a" "f.txt" "uploads/a/f.txt" 1 none 5).file_path = none ∧
      selectById st'.table "a" = none ∧
      loadFileData st' "a" 6 = (st', .notFound)) :=
  ⟨by decide, by decide,
    loadFileData_expired_deletes
      { storage := [("uploads/a/f.txt", [7])],
        table := [FileRecord.mk "a" "f.txt" "uploads/a/f.txt" 1 none 5] }
      "a" (FileRecord.mk "a" "f.txt" "uploads/a/f.txt" 1 none 5) 6
      (by decide) (by decide)⟩

/-- Claim C2: round-trip — uploading bytes `fileBytes` under filename
`fileName` with any password setting, then downloading before expiry
(supplying the same password input), returns exactly `fileBytes` under
the original filename. -/
theorem upload_download_roundtrip (hash : String → String) (st : BackendState)
    (fileId fileName : String) (fileBytes : List Nat) (password : String)
    (mins now now2 : Nat)
    (hnot : now2 ≤ now + mins * 60000) :
    ∃ (st' : BackendState) (fd : FileRecord),
      handleUpload hash st fileId fileName fileBytes password mins now true true
        = (st', .success ("/download/" ++ fileId)) ∧
      loadFileData st' fileId now2 = (st', .success fd) ∧
      handleDownload hash st' fd password = (st', .success fileBytes fileName) := by
  set filePath := "uploads/" ++ fileId ++ "/" ++ fileName with hfp
  set fd : FileRecord :=
    { id := fileId, filename := fileName, file_path := filePath,
      file_size := fileBytes.length,
      password_hash := if password = "" then none else some (hash password),
      expires_at := now + mins * 60000 } with hfd
  set st' : BackendState :=
    { storage := (filePath, fileBytes) :: st.storage, table := fd :: st.table } with hst
  have hsel : selectById st'.table fileId = some fd := selectById_cons_self _ _ _ rfl
  have hfetch : fetchFile st' fd = .success fileBytes fileName := by
    unfold fetchFile
    rw [show storageGet st'.storage fd.file_path = some fileBytes from
      storageGet_cons_head _ _ _]
  refine ⟨st', fd, ?_, ?_, ?_⟩
  · rfl
  · unfold loadFileData
    rw [hsel]
    have : ¬ fd.expires_at < now2 := by
      simp [hfd]
      omega
    simp [this]
  · by_cases hp : password = ""
    · have hh : fd.password_hash = none := by rw [hfd]; simp [hp]
      rw [handleDownload_no_gate hash st' fd password hh, hfetch]
    · have hh : fd.password_hash = some (hash password) := by rw [hfd]; simp [hp]
      by_cases hs : hash password = ""
      · rw [hs] at hh
        rw [handleDownload_empty_hash hash st' fd password hh, hfetch]
      · rw [handleDownload_correct_input hash st' fd (hash password) password hh hs hp rfl,
          hfetch]

/-- Claim C2 witness: the round-trip at a concrete upload — bytes
`[1, 2, 3]`, filename `report.pdf`, password `abc`, one minute of
validity, downloaded one second later. -/
theorem upload_download_roundtrip_witness :
    100 + 1 ≤ 100 + 1 * 60000 ∧
    (∃ (st' : BackendState) (fd : FileRecord),
      handleUpload (fun s => "h" ++ s) { storage := [], table := [] }
          "a" "report.pdf" [1, 2, 3] "abc" 1 100 true true
        = (st', .success ("/download/" ++ "a")) ∧
      loadFileData st' "a" (100 + 1) = (st', .success fd) ∧
      handleDownload (fun s => "h" ++ s) st' fd "abc"
        = (st', .success [1, 2, 3] "report.pdf")) :=
  ⟨by omega,
    upload_download_roundtrip (fun s => "h" ++ s) { storage := [], table := [] }
      "a" "report.pdf" [1, 2, 3] "abc" 1 100 (100 + 1) (by omega)⟩

/-- Claim C3: for a record whose `password_hash` is a stored digest
`hash P` of the (necessarily non-empty) original upload password `P`,
the download flow rejects an empty input password with
password-required, rejects any input whose digest differs from the
stored one with password-incorrect — both without touching the backend
state, so nothing is deleted — and on input `P` itself proceeds to the
byte fetch. -/
theorem download_password_gate (hash : String → String) (st : BackendState)
    (fd : FileRecord) (P q : String)
    (hset : fd.password_hash = some (hash P))
    (hne : hash P ≠ "")
    (hPne : P ≠ "") :
    handleDownload hash st fd "" = (st, .passwordRequired) ∧
    (q ≠ "" → hash q ≠ hash P → handleDownload hash st fd q = (st, .incorrectPassword)) ∧
    handleDownload hash st fd P = (st, fetchFile st fd) := by
  refine ⟨?_, ?_, ?_⟩
  · exact handleDownload_empty_input hash st fd (hash P) hset hne
  · intro hq hqP
    exact handleDownload_wrong_input hash st fd (hash P) q hset hne hq hqP
  · exact handleDownload_correct_input hash st fd (hash P) P hset hne hPne rfl

/-- Claim C3 witness: the gate at a concrete record protected with
password `abc`: empty input is rejected, input `xyz` is rejected, input
`abc` fetches the bytes. -/
theorem download_password_gate_witness :
    (FileRecord.mk "a" "f.txt" "uploads/a/f.txt" 1 (some "habc") 50).password_hash
      = some ((fun s => "h" ++ s) "abc") ∧
    (fun s : String => "h" ++ s) "abc" ≠ "" ∧
    "abc" ≠ "" ∧
    (handleDownload (fun s => "h" ++ s)
        { storage := [("uploads/a/f.txt", [7])],
          table := [FileRecord.mk "a" "f.txt" "uploads/a/f.txt" 1 (some "habc") 50] }
        (FileRecord.mk "a" "f.txt" "uploads/a/f.txt" 1 (some "habc") 50) ""
      = ({ storage := [("uploads/a/f.txt", [7])],
           table := [FileRecord.mk "a" "f.txt" "uploads/a/f.txt" 1 (some "habc") 50] },
         .passwordRequired) ∧
    ("xyz" ≠ "" → (fun s : String => "h" ++ s) "xyz" ≠ (fun s : String => "h" ++ s) "abc" →
      handleDownload (fun s => "h" ++ s)
        { storage := [("uploads/a/f.txt", [7])],
          table := [FileRecord.mk "a" "f.txt" "uploads/a/f.txt" 1 (some "habc") 50] }
        (FileRecord.mk "a" "f.txt" "uploads/a/f.txt" 1 (some "habc") 50) "xyz"
      = ({ storage := [("uploads/a/f.txt", [7])],
           table := [FileRecord.mk "a" "f.txt" "uploads/a/f.txt" 1 (some "habc") 50] },
         .incorrectPassword)) ∧
    handleDownload (fun s => "h" ++ s)
        { storage := [("uploads/a/f.txt", [7])],
          table := [FileRecord.mk "a" "f.txt" "uploads/a/f.txt" 1 (some "habc") 50] }
        (FileRecord.mk "a" "f.txt" "uploads/a/f.txt" 1 (some "habc") 50) "abc"
      = ({ storage := [("uploads/a/f.txt", [7])],
           table := [FileRecord.mk "a" "f.txt" "uploads/a/f.txt" 1 (some "habc") 50] },
         fetchFile
           { storage := [("uploads/a/f.txt", [7])],
             table := [FileRecord.mk "a" "f.txt" "uploads/a/f.txt" 1 (some "habc") 50] }
           (FileRecord.mk "a" "f.txt" "uploads/a/f.txt" 1 (some "habc") 50))) :=
  ⟨by decide, by decide, by decide,
    download_password_gate (fun s => "h" ++ s)
      { storage := [("uploads/a/f.txt", [7])],
        table := [FileRecord.mk "a" "f.txt" "uploads/a/f.txt" 1 (some "habc") 50] }
      (FileRecord.mk "a" "f.txt" "uploads/a/f.txt" 1 (some "habc") 50)
      "abc" "xyz" (by decide) (by decide) (by decide)⟩

/-- Claim C4: the upload flow stores the object before writing the
metadata record — if the storage put fails the whole flow fails with no
state change at all (in particular no metadata insert), and whenever a
new record appears in the table after an upload, the bytes are already
retrievable under its storage key. -/
theorem upload_object_before_metadata (hash : String → String) (st : BackendState)
    (fileId fileName : String) (fileBytes : List Nat) (password : String)
    (mins now : Nat) (insertOk : Bool) :
    handleUpload hash st fileId fileName fileBytes password mins now false insertOk
      = (st, .failure "Upload Failed") ∧
    (∀ (uploadOk : Bool) (r : FileRecord),
      r ∈ (handleUpload hash st fileId fileName fileBytes password mins now
            uploadOk insertOk).1.table →
      r ∉ st.table →
      storageGet (handleUpload hash st fileId fileName fileBytes password mins now
            uploadOk insertOk).1.storage r.file_path = some fileBytes) := by
  refine ⟨rfl, ?_⟩
  intro uploadOk r hmem hnew
  cases uploadOk with
  | false => exact absurd hmem hnew
  | true =>
    cases insertOk with
    | false => exact absurd hmem hnew
    | true =>
      rcases List.mem_cons.mp hmem with heq | hold
      · subst heq
        exact storageGet_cons_head _ _ _
      · exact absurd hold hnew

/-- Claim C4 witness: with the storage put failing, a concrete upload
leaves the empty state untouched and fails; and after a successful
concrete upload the inserted record's key holds the bytes. -/
theorem upload_object_before_metadata_witness :
    handleUpload (fun s => "h" ++ s) { storage := [], table := [] }
        "a" "f.txt" [1, 2] "" 1 0 false true
      = ({ storage := [], table := [] }, .failure "Upload Failed") ∧
    storageGet (handleUpload (fun s => "h" ++ s) { storage := [], table := [] }
        "a" "f.txt" [1, 2] "" 1 0 true true).1.storage
        (FileRecord.mk "a" "f.txt" ("uploads/" ++ "a" ++ "/" ++ "f.txt") 2 none 60000).file_path
      = some [1, 2] :=
  ⟨(upload_object_before_metadata (fun s => "h" ++ s) { storage := [], table := [] }
      "a" "f.txt" [1, 2] "" 1 0 true).1,
   (upload_object_before_metadata (fun s => "h" ++ s) { storage := [], table := [] }
      "a" "f.txt" [1, 2] "" 1 0 true).2 true
      (FileRecord.mk "a" "f.txt" ("uploads/" ++ "a" ++ "/" ++ "f.txt") 2 none 60000)
      (by decide) (by decide)⟩

/-- Claim C7: an upload made with no password stores a record whose
`password_hash` is null, and a download of that record is never
password-gated: for every input (including the empty one) the flow goes
straight to the byte fetch, never demanding a password. -/
theorem upload_no_password_never_gated (hash : String → String) (st : BackendState)
    (fileId fileName : String) (fileBytes : List Nat) (mins now : Nat) :
    ∃ (st' : BackendState) (fd : FileRecord),
      handleUpload hash st fileId fileName fileBytes "" mins now true true
        = (st', .success ("/download/" ++ fileId)) ∧
      selectById st'.table fileId = some fd ∧
      fd.password_hash = none ∧
      ∀ pw : String, handleDownload hash st' fd pw = (st', fetchFile st' fd) := by
  refine ⟨_, _, rfl, selectById_cons_self _ _ _ rfl, ?_, ?_⟩
  · simp
  · intro pw
    exact handleDownload_no_gate _ _ _ _ (by simp)

/-- Claim C9: an upload whose password input is the empty string is
treated as an upload with no password — the stored `password_hash` is
null, in particular not the digest of the empty string, and downloads of
that record are not password-gated for any input. -/
theorem upload_empty_password_is_no_password (hash : String → String)
    (st : BackendState) (fileId fileName : String) (fileBytes : List Nat)
    (mins now : Nat) :
    ∃ (st' : BackendState) (fd : FileRecord),
      handleUpload hash st fileId fileName fileBytes "" mins now true true
        = (st', .success ("/download/" ++ fileId)) ∧
      selectById st'.table fileId = some fd ∧
      fd.password_hash = none ∧
      fd.password_hash ≠ some (hash "") ∧
      ∀ pw : String, handleDownload hash st' fd pw = (st', fetchFile st' fd) := by
  refine ⟨_, _, rfl, selectById_cons_self _ _ _ rfl, ?_, ?_, ?_⟩
  · simp
  · simp
  · intro pw
    exact handleDownload_no_gate _ _ _ _ (by simp)

/-- Claim C5: the sweep selects exactly the records with `expires_at`
strictly before the query time `t1` and removes every one of them from
the table; a storage-removal failure changes neither the resulting table
nor the response; and the response reports the count of matched records
or the empty-result message when none matched. -/
theorem sweep_selects_and_reports (st : BackendState) (t1 t2 : Nat)
    (storageOk : Bool) (h12 : t1 ≤ t2) :
    (∀ r ∈ selectExpiredBefore st.table t1,
        r ∉ (sweepExpired st t1 t2 storageOk).1.table) ∧
    (sweepExpired st t1 t2 storageOk).1.table = (sweepExpired st t1 t2 true).1.table ∧
    (sweepExpired st t1 t2 storageOk).2 = (sweepExpired st t1 t2 true).2 ∧
    (sweepExpired st t1 t2 storageOk).2 =
      (if 0 < (selectExpiredBefore st.table t1).length then
        .deleted ("Deleted " ++ toString (selectExpiredBefore st.table t1).length
            ++ " expired files") (selectExpiredBefore st.table t1).length
      else .noExpired "No expired files found") := by
  by_cases hlen : 0 < (selectExpiredBefore st.table t1).length
  · refine ⟨?_, ?_, ?_, ?_⟩
    · intro r hr hmem
      rw [sweepExpired_pos st t1 t2 storageOk hlen] at hmem
      unfold selectExpiredBefore at hr
      rw [List.mem_filter] at hr hmem
      simp only [decide_eq_true_eq] at hr hmem
      omega
    · rw [sweepExpired_pos st t1 t2 storageOk hlen, sweepExpired_pos st t1 t2 true hlen]
    · rw [sweepExpired_pos st t1 t2 storageOk hlen, sweepExpired_pos st t1 t2 true hlen]
    · rw [sweepExpired_pos st t1 t2 storageOk hlen, if_pos hlen]
  · refine ⟨?_, ?_, ?_, ?_⟩
    · intro r hr
      have hnil : selectExpiredBefore st.table t1 = [] :=
        List.eq_nil_of_length_eq_zero (Nat.eq_zero_of_not_pos hlen)
      rw [hnil] at hr
      exact absurd hr (List.not_mem_nil r)
    · rw [sweepExpired_neg st t1 t2 storageOk hlen, sweepExpired_neg st t1 t2 true hlen]
    · rw [sweepExpired_neg st t1 t2 storageOk hlen, sweepExpired_neg st t1 t2 true hlen]
    · rw [sweepExpired_neg st t1 t2 storageOk hlen, if_neg hlen]

/-- Claim C5 witness: the sweep over the demo state at time 10 with a
failing batch storage removal. -/
theorem sweep_selects_and_reports_witness :
    (10 : Nat) ≤ 10 ∧
    ((∀ r ∈ selectExpiredBefore demoState.table 10,
        r ∉ (sweepExpired demoState 10 10 false).1.table) ∧
    (sweepExpired demoState 10 10 false).1.table
      = (sweepExpired demoState 10 10 true).1.table ∧
    (sweepExpired demoState 10 10 false).2 = (sweepExpired demoState 10 10 true).2 ∧
    (sweepExpired demoState 10 10 false).2 =
      (if 0 < (selectExpiredBefore demoState.table 10).length then
        .deleted ("Deleted " ++ toString (selectExpiredBefore demoState.table 10).length
            ++ " expired files") (selectExpiredBefore demoState.table 10).length
      else .noExpired "No expired files found")) :=
  ⟨Nat.le_refl 10, sweep_selects_and_reports demoState 10 10 false (Nat.le_refl 10)⟩

/-- Claim C6: a sweep run at time `t` leaves exactly the records not yet
expired at `t`, and an immediately following second invocation (no new
expirations) changes nothing and reports the empty-result message. -/
theorem sweep_idempotent (st : BackendState) (t : Nat) (ok1 ok2 : Bool) :
    (sweepExpired st t t ok1).1.table
      = st.table.filter (fun r => decide (¬ r.expires_at < t)) ∧
    sweepExpired (sweepExpired st t t ok1).1 t t ok2
      = ((sweepExpired st t t ok1).1, .noExpired "No expired files found") := by
  have htab : (sweepExpired st t t ok1).1.table
      = st.table.filter (fun r => decide (¬ r.expires_at < t)) := by
    by_cases hlen : 0 < (selectExpiredBefore st.table t).length
    · rw [sweepExpired_pos st t t ok1 hlen]
    · rw [sweepExpired_neg st t t ok1 hlen]
      have hnil : selectExpiredBefore st.table t = [] :=
        List.eq_nil_of_length_eq_zero (Nat.eq_zero_of_not_pos hlen)
      unfold selectExpiredBefore at hnil
      symm
      rw [List.filter_eq_self]
      intro a ha
      have := List.filter_eq_nil_iff.mp hnil a ha
      simpa using this
  refine ⟨htab, ?_⟩
  have hsel2 : selectExpiredBefore (sweepExpired st t t ok1).1.table t = [] := by
    rw [htab]
    unfold selectExpiredBefore
    rw [List.filter_eq_nil_iff]
    intro a ha
    rw [List.mem_filter] at ha
    simp only [decide_eq_true_eq] at ha ⊢
    exact ha.2
  exact sweepExpired_neg _ t t ok2 (by simp [hsel2])

/-- Claim C10: when the sweep finds `n > 0` expired records, the reported
`deletedCount` is exactly `n`, the size of the initial query result, and
the response is the same whatever the storage-removal outcome and
whatever (possibly later) timestamp the metadata delete re-evaluates
`expires_at` against. -/
theorem sweep_count_is_query_size (st : BackendState) (t1 t2 t2' : Nat)
    (ok ok' : Bool) (h : 0 < (selectExpiredBefore st.table t1).length) :
    (sweepExpired st t1 t2 ok).2
      = .deleted ("Deleted " ++ toString (selectExpiredBefore st.table t1).length
          ++ " expired files") (selectExpiredBefore st.table t1).length ∧
    (sweepExpired st t1 t2 ok).2 = (sweepExpired st t1 t2' ok').2 := by
  constructor
  · rw [sweepExpired_pos st t1 t2 ok h]
  · rw [sweepExpired_pos st t1 t2 ok h, sweepExpired_pos st t1 t2' ok' h]

/-- Claim C10 witness: over the demo state the sweep reports one deleted
record, whether or not the storage removal succeeds and whether the
metadata delete re-evaluates at time 10 or at time 20. -/
theorem sweep_count_is_query_size_witness :
    0 < (selectExpiredBefore demoState.table 10).length ∧
    ((sweepExpired demoState 10 10 false).2
      = .deleted ("Deleted " ++ toString (selectExpiredBefore demoState.table 10).length
          ++ " expired files") (selectExpiredBefore demoState.table 10).length ∧
    (sweepExpired demoState 10 10 false).2 = (sweepExpired demoState 10 20 true).2) :=
  ⟨by decide, sweep_count_is_query_size demoState 10 10 20 false true (by decide)⟩

end FileShare
